import Mathlib

/-!
A shallow embedding of ClarityTasks.py (the task data model, storage layer,
and filtered-view engine) together with theorems checking the specified
properties against it.

Time is made explicit: the current calendar date (`today`) and timestamp
strings (`now`, `classLoadTime`) are passed as parameters wherever the Python
source reads the clock.  The tkinter dialogs of `edit_selected` are modelled
as `Option String` inputs (`none` = the user cancelled the dialog), and the
message boxes as explicit outcome values.
-/

namespace ClarityTasks

/-- A calendar date as produced by `datetime.datetime.strptime(s, "%Y-%m-%d").date()`. -/
structure PDate where
  year : Nat
  month : Nat
  day : Nat
deriving Repr, DecidableEq

/-- Strict calendar order on dates (`d < datetime.date.today()` in the source). -/
def PDate.before (a b : PDate) : Bool :=
  a.year < b.year ||
    (a.year == b.year && (a.month < b.month ||
      (a.month == b.month && a.day < b.day)))

/-- Gregorian leap-year rule used by `datetime.date` to validate a day of month. -/
def isLeapYear (y : Nat) : Bool :=
  (y % 4 == 0 && y % 100 != 0) || (y % 400 == 0)

/-- Number of days in a month, as validated by the `datetime.date` constructor. -/
def daysInMonth (y m : Nat) : Nat :=
  if m == 2 then (if isLeapYear y then 29 else 28)
  else if m == 4 || m == 6 || m == 9 || m == 11 then 30
  else 31

/-- Value of a list of decimal digit characters. -/
def digitsToNat (cs : List Char) : Nat :=
  cs.foldl (fun a c => a * 10 + (c.toNat - 48)) 0

/-- Python `str.strip()`: leading and trailing whitespace removed. -/
def pyStrip (s : String) : String :=
  ⟨((s.data.dropWhile Char.isWhitespace).reverse.dropWhile Char.isWhitespace).reverse⟩

/-- Python `str.lower()` (ASCII case mapping, which covers every string the model uses). -/
def pyLower (s : String) : String :=
  ⟨s.data.map Char.toLower⟩

/-- Split a character list at every occurrence of the separator character. -/
def splitAtChar (sep : Char) (cs : List Char) : List (List Char) :=
  cs.foldr (fun c acc =>
    match acc with
    | [] => [[c]]
    | g :: gs => if c = sep then [] :: g :: gs else (c :: g) :: gs) [[]]

/--
`datetime.datetime.strptime(s, "%Y-%m-%d")` as a total function: `%Y` matches
exactly four digits, `%m` one or two digits valued 1..12, `%d` one or two
digits valued 1..31, the whole string must be consumed, and the resulting
`datetime` construction additionally requires `1 <= year` and
`day <= daysInMonth`; any failure raises `ValueError`, modelled as `none`.
-/
def parseDate (s : String) : Option PDate :=
  match splitAtChar '-' s.data with
  | [yc, mc, dc] =>
    if yc.length = 4 ∧ yc.all Char.isDigit
        ∧ 1 ≤ mc.length ∧ mc.length ≤ 2 ∧ mc.all Char.isDigit
        ∧ 1 ≤ dc.length ∧ dc.length ≤ 2 ∧ dc.all Char.isDigit then
      let y := digitsToNat yc
      let m := digitsToNat mc
      let d := digitsToNat dc
      if 1 ≤ y ∧ 1 ≤ m ∧ m ≤ 12 ∧ 1 ≤ d ∧ d ≤ 31 ∧ d ≤ daysInMonth y m then
        some ⟨y, m, d⟩
      else none
    else none
  | _ => none

/-- `TodoApp._valid_date`: `strptime` succeeds. -/
def valid_date (s : String) : Bool :=
  (parseDate s).isSome

/-- The `Task` dataclass. -/
structure Task where
  title : String
  done : Bool
  priority : String
  due : Option String
  created : String
deriving Repr, DecidableEq

/-- Python truthiness of the `due` field: `not self.due` holds for `None` and `""`. -/
def dueFalsy : Option String → Bool
  | none => true
  | some s => decide (s = "")

/-- `Task.is_overdue`, with today's date passed explicitly. -/
def Task.is_overdue (t : Task) (today : PDate) : Bool :=
  if t.done || dueFalsy t.due then false
  else
    match t.due with
    | some s =>
      match parseDate s with
      | some d => PDate.before d today
      | none => false
    | none => false

/-- `Task.is_due_today`, with today's date passed explicitly. -/
def Task.is_due_today (t : Task) (today : PDate) : Bool :=
  if t.done || dueFalsy t.due then false
  else
    match t.due with
    | some s =>
      match parseDate s with
      | some d => decide (d = today)
      | none => false
    | none => false

/--
Construction of a `Task` without an explicit `created` argument.  In the
source the dataclass default `created = datetime.datetime.now().strftime(...)`
is evaluated once, when the class object is built; `classLoadTime` is that
frozen value.  `constructionNow` is the clock reading at this construction
call — the dataclass default ignores it, which the definition makes explicit.
-/
def Task.mkDefault (classLoadTime constructionNow : String)
    (title : String) (priority : String) (due : Option String) : Task :=
  { title := title
  , done := false
  , priority := priority
  , due := due
  , created := classLoadTime }

/--
One JSON object of the backing file, as consumed by `load_tasks` via
`item.get(...)`: each field is present (`some`) or absent (`none`); an absent
`due` and a JSON `null` both read back as `none`.
-/
structure StoredRecord where
  title : Option String
  done : Option Bool
  priority : Option String
  due : Option String
  created : Option String
deriving Repr, DecidableEq

/-- The `Task(...)` construction inside the `load_tasks` loop, with its `item.get` defaults. -/
def load_record (now : String) (r : StoredRecord) : Task :=
  { title := r.title.getD ""
  , done := r.done.getD false
  , priority := r.priority.getD "Medium"
  , due := r.due
  , created := r.created.getD now }

/-- `load_tasks` on a successfully parsed backing file: one `Task` per stored record. -/
def load_tasks (now : String) (rs : List StoredRecord) : List Task :=
  rs.map (load_record now)

/-- `asdict(t)`: the JSON object written for one task, every field present. -/
def save_record (t : Task) : StoredRecord :=
  { title := some t.title
  , done := some t.done
  , priority := some t.priority
  , due := t.due
  , created := some t.created }

/-- `save_tasks` serialization: `asdict(t)` per task, in store order. -/
def save_tasks (tasks : List Task) : List StoredRecord :=
  tasks.map save_record

/--
The backing file: its record content, and whether it is well formed (a
complete JSON document; a write interrupted mid-dump leaves it ill formed).
-/
structure FileState where
  content : List StoredRecord
  wellFormed : Bool
deriving Repr, DecidableEq

/--
Writing a record sequence to an already-truncated file.  `fault = some k`
models an exception raised by `json.dump` after `k` records have reached the
file; `fault = none` is the fault-free run.
-/
def writeRecords : List StoredRecord → Option Nat → FileState
  | rs, none => ⟨rs, true⟩
  | rs, some k => ⟨rs.take k, false⟩

/--
`save_tasks` as the file-level operation: `open(DATA_FILE, "w")` truncates
the prior content in place, then `json.dump` writes the serialized records
sequentially; any exception is caught and reported as a Save Error (the
returned `Bool`).  The in-memory task list is not touched by this function.
-/
def save_tasks_file (tasks : List Task) (prior : FileState) (fault : Option Nat) :
    FileState × Bool :=
  let truncated : FileState := ⟨[], true⟩
  let afterWrite : FileState :=
    ⟨truncated.content ++ (writeRecords (save_tasks tasks) fault).content,
     (writeRecords (save_tasks tasks) fault).wellFormed⟩
  match fault with
  | none => (afterWrite, false)
  | some _ => (afterWrite, true)

/--
`TodoApp.add_task`: reads the entry variables, trims them, defaults a blank
priority to "Medium" and a blank due to `None`, rejects an empty title or an
invalid due date with a warning (no state change), else appends
`Task(title=..., priority=..., due=...)` — `created` left to the dataclass
default.  The returned `Bool` is whether the task was appended (and the store
saved).
-/
def add_task (tasks : List Task) (titleVar prioVar dueVar : String)
    (classLoadTime now : String) : List Task × Bool :=
  let title := pyStrip titleVar
  let prio := if pyStrip prioVar = "" then "Medium" else pyStrip prioVar
  let due : Option String :=
    if pyStrip dueVar = "" then none else some (pyStrip dueVar)
  if title = "" then (tasks, false)
  else if (match due with | some d => !(valid_date d) | none => false) then
    (tasks, false)
  else (tasks ++ [Task.mkDefault classLoadTime now title prio due], true)

/-- Python `str.capitalize()`: first character uppercased, the rest lowercased. -/
def pyCapitalize (s : String) : String :=
  match s.data with
  | [] => ""
  | c :: cs => String.mk (c.toUpper :: cs.map Char.toLower)

/-- Outcome of `TodoApp.edit_selected` as observable through its dialogs and message boxes. -/
inductive EditOutcome where
  | noSelection
  | cancelled
  | invalidPriority
  | invalidDate
  | edited
deriving Repr, DecidableEq

/--
`TodoApp.edit_selected` on store position `i`, with the three
`simpledialog.askstring` answers passed in (`none` = dialog cancelled).
An empty-after-strip title answer falls back to the task's current title
(`new_title.strip() or t.title`); the priority answer is capitalized and
checked against Low/Medium/High; the due answer is stripped, blank becoming
`None`, and otherwise date-validated.  Only when all three pass are the three
fields assigned in place and the store saved.
-/
def edit_selected (tasks : List Task) (i : Nat)
    (titleIn prioIn dueIn : Option String) : List Task × EditOutcome :=
  match tasks[i]? with
  | none => (tasks, .noSelection)
  | some t =>
    match titleIn with
    | none => (tasks, .cancelled)
    | some ti =>
      let newTitle := if pyStrip ti = "" then t.title else pyStrip ti
      match prioIn with
      | none => (tasks, .cancelled)
      | some pIn =>
        let newPrio := pyCapitalize pIn
        if newPrio ≠ "Low" ∧ newPrio ≠ "Medium" ∧ newPrio ≠ "High" then
          (tasks, .invalidPriority)
        else
          match dueIn with
          | none => (tasks, .cancelled)
          | some di =>
            let newDue : Option String :=
              if pyStrip di = "" then none else some (pyStrip di)
            if (match newDue with | some d => !(valid_date d) | none => false) then
              (tasks, .invalidDate)
            else
              (tasks.set i
                { title := newTitle
                , done := t.done
                , priority := newPrio
                , due := newDue
                , created := t.created }, .edited)

/--
`TodoApp.clear_completed`: keep the tasks that are not done; the store is
rewritten to the file only when the length changed (second component).
-/
def clear_completed (tasks : List Task) : List Task × Bool :=
  let kept := tasks.filter (fun t => !t.done)
  (kept, decide (kept.length ≠ tasks.length))

/-- `TodoApp._matches_filter`, dispatching on the filter combobox string. -/
def matchesFilter (f : String) (today : PDate) (t : Task) : Bool :=
  if f = "All" then true
  else if f = "Active" then !t.done
  else if f = "Completed" then t.done
  else if f = "Due Today" then t.is_due_today today
  else if f = "Overdue" then t.is_overdue today
  else if f = "High Priority" then decide (t.priority = "High") && !t.done
  else true

/-- Whether `q` is a prefix of `hay`, character by character. -/
def charsPrefix : List Char → List Char → Bool
  | [], _ => true
  | _ :: _, [] => false
  | a :: as, b :: bs => a == b && charsPrefix as bs

/-- Python `q in hay` on strings: `q` occurs contiguously at some position of `hay`. -/
def strContains (hay q : String) : Bool :=
  (List.range (hay.data.length + 1)).any (fun i => charsPrefix q.data (hay.data.drop i))

/--
`TodoApp._matches_search`: the query is stripped and lowercased; an empty
query matches everything; otherwise it must occur in
`f"{t.title} {t.priority} {t.due or ''}".lower()`.
-/
def matchesSearch (search : String) (t : Task) : Bool :=
  let q := pyLower (pyStrip search)
  if q = "" then true
  else
    strContains (pyLower (t.title ++ " " ++ t.priority ++ " " ++ t.due.getD "")) q

/-- A task is visible iff it passes both the filter and the search predicate. -/
def visibleTask (f search : String) (today : PDate) (t : Task) : Bool :=
  matchesFilter f today t && matchesSearch search t

/--
The `for i, t in enumerate(self.tasks)` loop of `refresh_view` that rebuilds
`filtered_indices`, started at position `i`.
-/
def buildIndices (p : Task → Bool) : List Task → Nat → List Nat
  | [], _ => []
  | t :: ts, i =>
    if p t then i :: buildIndices p ts (i + 1) else buildIndices p ts (i + 1)

/--
`TodoApp.refresh_view`: rebuilds the view projection (`filtered_indices`) and
unconditionally ends with `save_tasks(self.tasks)`; the second component is
the record sequence written to the backing file by that call.
-/
def refresh_view (tasks : List Task) (filterMode searchText : String)
    (today : PDate) : List Nat × List StoredRecord :=
  (buildIndices (visibleTask filterMode searchText today) tasks 0,
   save_tasks tasks)

/-- The controller state the claims range over: store, filter mode, search text. -/
structure AppState where
  tasks : List Task
  filterMode : String
  searchText : String
deriving Repr, DecidableEq

/--
The `search_var.trace_add("write", ...)` binding: every write to the search
variable (each keystroke) immediately runs `refresh_view` on the unchanged
store.
-/
def set_search_text (st : AppState) (newText : String) (today : PDate) :
    AppState × (List Nat × List StoredRecord) :=
  let st2 : AppState := { st with searchText := newText }
  (st2, refresh_view st2.tasks st2.filterMode st2.searchText today)

/-- The `filter_var.trace_add("write", ...)` binding, analogous to the search one. -/
def set_filter_mode (st : AppState) (newMode : String) (today : PDate) :
    AppState × (List Nat × List StoredRecord) :=
  let st2 : AppState := { st with filterMode := newMode }
  (st2, refresh_view st2.tasks st2.filterMode st2.searchText today)

/-- The persisted content of a task: the four fields the round-trip property compares. -/
def taskContent (t : Task) : String × Bool × String × Option String :=
  (t.title, t.done, t.priority, t.due)

/-- A valid task in the sense of the data model: non-blank title, listed priority, parseable or absent due. -/
def ValidTask (t : Task) : Bool :=
  !(decide (pyStrip t.title = "")) &&
    (decide (t.priority = "Low") || decide (t.priority = "Medium") ||
      decide (t.priority = "High")) &&
    (match t.due with | none => true | some d => valid_date d)

/-! ### Helper lemmas -/

theorem parseDate_empty_string : parseDate "" = none := by decide

theorem load_record_save_record (now : String) (t : Task) :
    load_record now (save_record t) = t := rfl

theorem buildIndices_le (p : Task → Bool) :
    ∀ (ts : List Task) (i j : Nat), j ∈ buildIndices p ts i → i ≤ j := by
  intro ts
  induction ts with
  | nil => intro i j h; simp [buildIndices] at h
  | cons t ts ih =>
    intro i j h
    cases hp : p t <;> simp [buildIndices, hp] at h
    · exact Nat.le_of_succ_le (ih (i + 1) j h)
    · rcases h with h | h
      · omega
      · exact Nat.le_of_succ_le (ih (i + 1) j h)

theorem buildIndices_pairwise (p : Task → Bool) :
    ∀ (ts : List Task) (i : Nat), (buildIndices p ts i).Pairwise (· < ·) := by
  intro ts
  induction ts with
  | nil => intro i; simp [buildIndices]
  | cons t ts ih =>
    intro i
    cases hp : p t <;> simp [buildIndices, hp]
    · exact ih (i + 1)
    · refine ⟨?_, ih (i + 1)⟩
      intro j hj
      have := buildIndices_le p ts (i + 1) j hj
      omega

theorem buildIndices_mem (p : Task → Bool) :
    ∀ (ts : List Task) (i j : Nat),
      j ∈ buildIndices p ts i ↔
        ∃ k t, ts[k]? = some t ∧ p t = true ∧ j = i + k := by
  intro ts
  induction ts with
  | nil => intro i j; simp [buildIndices]
  | cons t ts ih =>
    intro i j
    cases hp : p t <;> simp only [buildIndices, hp, if_true, if_false,
      Bool.false_eq_true, List.mem_cons]
    · rw [ih (i + 1) j]
      constructor
      · rintro ⟨k, u, hu, hpu, hj⟩
        exact ⟨k + 1, u, by simpa using hu, hpu, by omega⟩
      · rintro ⟨k, u, hu, hpu, hj⟩
        match k with
        | 0 =>
          rw [List.getElem?_cons_zero] at hu
          cases hu
          rw [hp] at hpu
          exact absurd hpu (by simp)
        | k + 1 =>
          rw [List.getElem?_cons_succ] at hu
          exact ⟨k, u, hu, hpu, by omega⟩
    · rw [ih (i + 1) j]
      constructor
      · rintro (hj | ⟨k, u, hu, hpu, hj⟩)
        · exact ⟨0, t, List.getElem?_cons_zero, hp, by omega⟩
        · exact ⟨k + 1, u, by simpa using hu, hpu, by omega⟩
      · rintro ⟨k, u, hu, hpu, hj⟩
        match k with
        | 0 =>
          rw [List.getElem?_cons_zero] at hu
          cases hu
          left
          omega
        | k + 1 =>
          rw [List.getElem?_cons_succ] at hu
          exact Or.inr ⟨k, u, hu, hpu, by omega⟩

/-! ### Claim theorems -/

/--
Claim C4 (code bug): the claim says `created` is computed at each individual
construction call; in the source the dataclass default
`created = datetime.datetime.now().strftime(...)` is evaluated once at class
definition time, so two tasks added at the distinct instants N1 and N2 in a
process whose `Task` class was built at T0 both record T0, not their own
construction times.
-/
theorem created_frozen_at_class_definition :
    ((add_task ((add_task [] "first task" "" "" "T0" "N1").1)
        "second task" "" "" "T0" "N2").1.map Task.created = ["T0", "T0"]) ∧
    ("N1" ≠ "N2" ∧ "T0" ≠ "N1" ∧ "T0" ≠ "N2") := by
  exact ⟨rfl, by decide⟩

/--
Claim C8: after `clear_completed` the store contains no task with
`done = true`, and the surviving tasks are exactly the not-done tasks of the
original store — an order-preserving sublist containing every not-done task
with its original multiplicity.
-/
theorem clear_completed_correct (tasks : List Task) :
    (∀ t ∈ (clear_completed tasks).1, t.done = false) ∧
    (clear_completed tasks).1.Sublist tasks ∧
    (∀ t : Task, t.done = false →
      (clear_completed tasks).1.count t = tasks.count t) := by
  refine ⟨?_, ?_, ?_⟩
  · intro t ht
    have h := (List.mem_filter.mp ht).2
    simpa using h
  · exact List.filter_sublist tasks
  · intro t ht
    exact List.count_filter (by simp [ht])

/-- Witness for C8 at a concrete two-task store. -/
theorem clear_completed_correct_w :
    (clear_completed [⟨"A", false, "Medium", none, "c"⟩,
        ⟨"B", true, "Medium", none, "c"⟩]).1.count ⟨"A", false, "Medium", none, "c"⟩ =
      ([⟨"A", false, "Medium", none, "c"⟩,
        ⟨"B", true, "Medium", none, "c"⟩] : List Task).count
        ⟨"A", false, "Medium", none, "c"⟩ :=
  (clear_completed_correct _).2.2 _ rfl

/--
Claim C9: every projection rebuild ends by writing the full task sequence to
the backing file: a search-text change (each keystroke writes `search_var`,
whose trace immediately runs `refresh_view`) and a filter-mode change both
leave the store untouched yet emit a save of the full serialized store, and
`refresh_view` itself saves unconditionally.
-/
theorem refresh_always_saves (st : AppState) (txt mode : String) (today : PDate) :
    ((set_search_text st txt today).1.tasks = st.tasks ∧
      (set_search_text st txt today).2.2 = save_tasks st.tasks) ∧
    ((set_filter_mode st mode today).1.tasks = st.tasks ∧
      (set_filter_mode st mode today).2.2 = save_tasks st.tasks) ∧
    (∀ (tasks : List Task) (fm q : String),
      (refresh_view tasks fm q today).2 = save_tasks tasks) := by
  exact ⟨⟨rfl, rfl⟩, ⟨rfl, rfl⟩, fun _ _ _ => rfl⟩

/--
Claim C10: a stored record without a `title` field is not rejected by
`load_tasks`: the record count is preserved and the resulting task's title is
the empty string.
-/
theorem load_defaults_missing_title (rs : List StoredRecord) (now : String)
    (i : Nat) (r : StoredRecord) (h : rs[i]? = some r) (ht : r.title = none) :
    (load_tasks now rs).length = rs.length ∧
    (load_tasks now rs)[i]? = some (load_record now r) ∧
    (load_record now r).title = "" := by
  refine ⟨by simp [load_tasks], ?_, ?_⟩
  · simp [load_tasks, List.getElem?_map, h]
  · simp [load_record, ht]

/-- Witness for C10 at a record with every field absent. -/
theorem load_defaults_missing_title_w :
    (load_tasks "N" [⟨none, none, none, none, none⟩]).length = 1 ∧
    (load_record "N" ⟨none, none, none, none, none⟩).title = "" := by
  have h := load_defaults_missing_title [⟨none, none, none, none, none⟩] "N" 0 _ rfl rfl
  exact ⟨h.1, h.2.2⟩

/--
Claim C5: if a task is done, or its due is absent, or its due does not parse
under the fixed YYYY-MM-DD encoding, then `is_overdue` and `is_due_today`
both return false (totally, never raising); otherwise `is_overdue` holds iff
the parsed due date is strictly before today and `is_due_today` iff it equals
today.
-/
theorem derived_status_correct (t : Task) (today : PDate) :
    ((t.done = true ∨ t.due = none ∨ (∀ s, t.due = some s → parseDate s = none)) →
      t.is_overdue today = false ∧ t.is_due_today today = false) ∧
    (∀ s d, t.done = false → t.due = some s → parseDate s = some d →
      t.is_overdue today = PDate.before d today ∧
      t.is_due_today today = decide (d = today)) := by
  constructor
  · intro h
    unfold Task.is_overdue Task.is_due_today
    rcases h with hd | hn | hu
    · simp [hd]
    · simp [hn, dueFalsy]
    · cases hdu : t.due with
      | none => simp [dueFalsy]
      | some s =>
        have hps := hu s hdu
        by_cases hse : s = ""
        · simp [dueFalsy, hse]
        · simp [dueFalsy, hse, hps]
  · intro s d hdone hdu hps
    have hse : s ≠ "" := by
      intro he
      rw [he, parseDate_empty_string] at hps
      exact Option.noConfusion hps
    unfold Task.is_overdue Task.is_due_today
    simp [hdu, dueFalsy, hse, hdone, hps]

/-- Witness for C5: a done task is never overdue, a past due date on a not-done task is. -/
theorem derived_status_correct_w :
    Task.is_overdue ⟨"A", false, "Medium", some "2000-01-01", "c"⟩ ⟨2025, 9, 4⟩ = true ∧
    Task.is_due_today ⟨"B", true, "Medium", some "2000-01-01", "c"⟩ ⟨2025, 9, 4⟩ = false := by
  constructor
  · have h := (derived_status_correct ⟨"A", false, "Medium", some "2000-01-01", "c"⟩
      ⟨2025, 9, 4⟩).2 "2000-01-01" ⟨2000, 1, 1⟩ rfl rfl (by decide)
    rw [h.1]
    decide
  · exact ((derived_status_correct ⟨"B", true, "Medium", some "2000-01-01", "c"⟩
      ⟨2025, 9, 4⟩).1 (Or.inl rfl)).2

/--
Claim C6: the rebuilt projection is the strictly increasing sequence of
exactly the store positions whose tasks pass both the filter-mode predicate
and the search predicate, and a search text that is empty after stripping
matches every task.
-/
theorem refresh_projection_correct (tasks : List Task) (fm q : String)
    (today : PDate) :
    (refresh_view tasks fm q today).1.Pairwise (· < ·) ∧
    (∀ j, j ∈ (refresh_view tasks fm q today).1 ↔
      ∃ t, tasks[j]? = some t ∧ matchesFilter fm today t = true ∧
        matchesSearch q t = true) ∧
    (∀ (s : String) (t : Task), pyStrip s = "" → matchesSearch s t = true) := by
  refine ⟨buildIndices_pairwise _ tasks 0, ?_, ?_⟩
  · intro j
    rw [show (refresh_view tasks fm q today).1 =
        buildIndices (visibleTask fm q today) tasks 0 from rfl]
    rw [buildIndices_mem]
    constructor
    · rintro ⟨k, t, hk, hp, hj⟩
      refine ⟨t, by simpa [hj] using hk, ?_, ?_⟩
      · exact ((Bool.and_eq_true _ _).mp hp).1
      · exact ((Bool.and_eq_true _ _).mp hp).2
    · rintro ⟨t, hk, hf, hs⟩
      exact ⟨j, t, hk, by simp [visibleTask, hf, hs], by omega⟩
  · intro s t h
    simp [matchesSearch, h, pyLower]

/-- Witness for C6: the spec scenario store under filter "All" and empty search. -/
theorem refresh_projection_correct_w :
    1 ∈ (refresh_view [⟨"A", false, "Medium", some "2000-01-01", "c"⟩,
      ⟨"B", true, "Medium", none, "c"⟩] "All" "" ⟨2025, 9, 4⟩).1 := by
  refine ((refresh_projection_correct [⟨"A", false, "Medium", some "2000-01-01", "c"⟩,
    ⟨"B", true, "Medium", none, "c"⟩] "All" "" ⟨2025, 9, 4⟩).2.1 1).mpr ?_
  exact ⟨⟨"B", true, "Medium", none, "c"⟩, by decide, by decide, by decide⟩

/--
Claim C7: for every non-empty sequence of valid tasks, `save` followed by
`load` yields a sequence with the same title, done, priority and due fields
in the same order.
-/
theorem save_load_round_trip (tasks : List Task) (now : String)
    (hne : tasks ≠ []) (hv : ∀ t ∈ tasks, ValidTask t = true) :
    (load_tasks now (save_tasks tasks)).map taskContent = tasks.map taskContent := by
  rw [load_tasks, save_tasks, List.map_map, List.map_map]
  exact List.map_congr_left (fun t _ => congrArg taskContent (load_record_save_record now t))

/-- Witness for C7 at a concrete singleton store of one valid task. -/
theorem save_load_round_trip_w :
    (load_tasks "N" (save_tasks [⟨"A", false, "Medium", some "2024-02-29", "c"⟩])).map
        taskContent =
      ([⟨"A", false, "Medium", some "2024-02-29", "c"⟩] : List Task).map taskContent :=
  save_load_round_trip [⟨"A", false, "Medium", some "2024-02-29", "c"⟩] "N"
    (by decide) (by decide)

/--
Claim C1, counterexample: the add path performs no priority validation — an
add with the supplied priority string "Urgent" mutates the store and leaves a
task whose priority is outside Low/Medium/High.
-/
theorem priority_unvalidated_add_cex :
    add_task [] "Buy milk" "Urgent" "" "T0" "N1" =
      ([⟨"Buy milk", false, "Urgent", none, "T0"⟩], true) ∧
    ¬("Urgent" = "Low" ∨ "Urgent" = "Medium" ∨ "Urgent" = "High") := by
  exact ⟨rfl, by decide⟩

/--
Claim C1 (amended): only the edit path validates priority — an edit whose
capitalized priority answer is outside Low/Medium/High is rejected before any
state change; the add path appends the stripped priority string verbatim
(defaulting a blank one to "Medium"), and load keeps a stored priority field
verbatim (defaulting an absent one to "Medium").
-/
theorem priority_validation_edit_only :
    (∀ (tasks : List Task) (i : Nat) (t : Task) (ti p di : String),
      tasks[i]? = some t →
      pyCapitalize p ≠ "Low" → pyCapitalize p ≠ "Medium" → pyCapitalize p ≠ "High" →
      edit_selected tasks i (some ti) (some p) (some di) = (tasks, .invalidPriority)) ∧
    (∀ (tasks : List Task) (ti p di cl now : String),
      pyStrip ti ≠ "" → pyStrip p ≠ "" → pyStrip di = "" →
      add_task tasks ti p di cl now =
        (tasks ++ [Task.mkDefault cl now (pyStrip ti) (pyStrip p) none], true)) ∧
    (∀ (rs : List StoredRecord) (now : String),
      (load_tasks now rs).map Task.priority =
        rs.map (fun r => r.priority.getD "Medium")) := by
  refine ⟨?_, ?_, ?_⟩
  · intro tasks i t ti p di ht h1 h2 h3
    unfold edit_selected
    rw [ht]
    simp only []
    rw [if_pos ⟨h1, h2, h3⟩]
  · intro tasks ti p di cl now h1 h2 h3
    unfold add_task
    simp only [h3, if_pos rfl]
    rw [if_neg h1, if_neg h2]
    simp
  · intro rs now
    rw [load_tasks, List.map_map]
    exact List.map_congr_left (fun r _ => rfl)

/-- Witness for the amended C1 at a concrete store, rejected priority and accepted add. -/
theorem priority_validation_edit_only_w :
    edit_selected [⟨"Old", false, "High", none, "c"⟩] 0
        (some "T") (some "urgent") (some "") =
      ([⟨"Old", false, "High", none, "c"⟩], .invalidPriority) ∧
    add_task [] "Buy milk" "low" "" "T0" "N1" =
      ([Task.mkDefault "T0" "N1" "Buy milk" "low" none], true) := by
  constructor
  · exact priority_validation_edit_only.1 _ 0 _ "T" "urgent" "" rfl
      (by decide) (by decide) (by decide)
  · exact priority_validation_edit_only.2.1 [] "Buy milk" "low" "" "T0" "N1"
      (by decide) (by decide) (by decide)

/--
Claim C2, counterexample: `save_tasks` opens the backing file in mode "w"
(truncating it) and then writes the records sequentially, so a write that
fails after one of two records leaves the file holding neither its prior
content nor the full serialized sequence — save is not atomic.
-/
theorem save_not_atomic_cex :
    (save_tasks_file
        [⟨"A", false, "Medium", none, "c"⟩, ⟨"B", false, "Medium", none, "c"⟩]
        ⟨[⟨some "Old", some false, some "Low", none, some "c"⟩], true⟩
        (some 1)).1.content ≠
      [⟨some "Old", some false, some "Low", none, some "c"⟩] ∧
    (save_tasks_file
        [⟨"A", false, "Medium", none, "c"⟩, ⟨"B", false, "Medium", none, "c"⟩]
        ⟨[⟨some "Old", some false, some "Low", none, some "c"⟩], true⟩
        (some 1)).1.content ≠
      save_tasks [⟨"A", false, "Medium", none, "c"⟩, ⟨"B", false, "Medium", none, "c"⟩] ∧
    (save_tasks_file
        [⟨"A", false, "Medium", none, "c"⟩, ⟨"B", false, "Medium", none, "c"⟩]
        ⟨[⟨some "Old", some false, some "Low", none, some "c"⟩], true⟩
        (some 1)).1.wellFormed = false := by
  refine ⟨by decide, by decide, rfl⟩

/--
Claim C2 (amended): a fault-free save writes the full serialized sequence; on
an I/O fault the error is reported to the caller and the in-memory task
sequence is untouched, but the backing file is left holding only the prefix
of the new serialization written before the fault (its prior content is
already truncated away), so save is not atomic.
-/
theorem save_error_reporting (tasks : List Task) (prior : FileState)
    (fault : Option Nat) :
    (save_tasks_file tasks prior fault).2 = fault.isSome ∧
    (save_tasks_file tasks prior none).1 = ⟨save_tasks tasks, true⟩ ∧
    (∀ k, (save_tasks_file tasks prior (some k)).1.content =
      (save_tasks tasks).take k ∧
      (save_tasks_file tasks prior (some k)).1.wellFormed = false) := by
  refine ⟨?_, by simp [save_tasks_file, writeRecords], fun k => ⟨?_, rfl⟩⟩
  · cases fault <;> rfl
  · simp [save_tasks_file, writeRecords]

/--
Claim C3, counterexample: an edit supplying a title that is empty after
stripping does not fail with a validation error — the old title is silently
kept, the edit commits, and the task's priority is mutated from "High" to
"Low".
-/
theorem edit_empty_title_cex :
    (edit_selected [⟨"Old", false, "High", none, "c"⟩] 0
        (some " ") (some "low") (some "")).2 = EditOutcome.edited ∧
    (edit_selected [⟨"Old", false, "High", none, "c"⟩] 0
        (some " ") (some "low") (some "")).1 ≠
      [⟨"Old", false, "High", none, "c"⟩] := by
  exact ⟨rfl, by decide⟩

/--
Claim C3 (amended): for an in-bounds position and a supplied title that is
empty after stripping, the edit does not fail: the title silently falls back
to the task's existing title and the edit commits, mutating priority and due
(here to a valid priority and an absent due) while `done` and `created` stay
untouched.
-/
theorem edit_empty_title_keeps_old_title (tasks : List Task) (i : Nat) (t : Task)
    (ti p di : String) (ht : tasks[i]? = some t) (hti : pyStrip ti = "")
    (hp : pyCapitalize p = "Low" ∨ pyCapitalize p = "Medium" ∨ pyCapitalize p = "High")
    (hdi : pyStrip di = "") :
    edit_selected tasks i (some ti) (some p) (some di) =
      (tasks.set i ⟨t.title, t.done, pyCapitalize p, none, t.created⟩, .edited) := by
  unfold edit_selected
  rw [ht]
  simp only [hti, hdi, if_pos rfl]
  rw [if_neg ?hcond]
  case hcond =>
    rintro ⟨h1, h2, h3⟩
    rcases hp with h | h | h
    · exact h1 h
    · exact h2 h
    · exact h3 h
  simp

/-- Witness for the amended C3 at a concrete one-task store. -/
theorem edit_empty_title_keeps_old_title_w :
    edit_selected [⟨"Old", false, "High", none, "c"⟩] 0
        (some " ") (some "low") (some "") =
      ([⟨"Old", false, "Low", none, "c"⟩], .edited) := by
  have h := edit_empty_title_keeps_old_title [⟨"Old", false, "High", none, "c"⟩] 0
    ⟨"Old", false, "High", none, "c"⟩ " " "low" "" rfl (by decide)
    (Or.inl (by decide)) (by decide)
  simpa using h

end ClarityTasks
